import Mathlib

/-!
Verification development for the lottme node backend core:
wallet ledger (walletService.updateWallet), ticket allocator
(POST /lottery/:id/purchase), lifecycle flags (computeLotteryFlags,
cron sweep) and the draw engine (drawLotteryService.drawLottery).

Monetary amounts are modelled as exact integers in minor units (cents):
the source stores Decimal128 values rendered with toFixed(2), on which
integer cent arithmetic is exact. Ticket numbers are modelled by their
index 1..maxTickets; the source formats index i as the string
lotteryPrefix ++ "-" ++ zeroPad(i), an injective map, and a chosen
ticket string is accepted only if it is a member of the available set,
so membership of the index in the available index set is an equivalent
test. Datetimes are integers (epoch milliseconds).

Each operation that the source wraps in a mongoose transaction is
modelled as a function returning the post-state on success; on error
the source calls abortTransaction, so the caller-visible state is the
pre-state, which the top-level wrappers return explicitly.
-/

namespace Lottme

/-- Decidable equality for results, so that the operations can be
evaluated at concrete inputs by decide. -/
instance {ε α : Type} [DecidableEq ε] [DecidableEq α] : DecidableEq (Except ε α)
  | .error e, .error f =>
      if h : e = f then isTrue (by rw [h]) else isFalse (fun hh => h (by injection hh))
  | .error _, .ok _ => isFalse (fun hh => Except.noConfusion hh)
  | .ok _, .error _ => isFalse (fun hh => Except.noConfusion hh)
  | .ok a, .ok b =>
      if h : a = b then isTrue (by rw [h]) else isFalse (fun hh => h (by injection hh))

/-- Roles of the User schema; only the user role owns a wallet. -/
inductive Role where
  | user
  | admin
deriving DecidableEq

/-- Account data of the User schema relevant to the wallet ledger. -/
structure Account where
  role : Role
  walletBalance : Int
deriving DecidableEq

/-- Transaction record (the LedgerEntry of the spec): the source stores
the absolute value of the change, a credit/debit kind chosen by the sign
of the change, and the resulting balance. -/
structure Txn where
  user : Nat
  amount : Nat
  isCredit : Bool
  balanceAfter : Int
deriving DecidableEq

/-- Signed value of a ledger entry: positive for a credit, negative for
a debit. -/
def signedAmount (e : Txn) : Int :=
  if e.isCredit then (e.amount : Int) else -(e.amount : Int)

/-- Wallet-ledger state: the User collection (user id keyed) and the
append-only Transaction collection. -/
structure WalletSt where
  users : List (Nat × Account)
  txns : List Txn
deriving DecidableEq

/-- Lookup of a user document by id (User.findById). -/
def findUser (uid : Nat) : List (Nat × Account) → Option Account
  | [] => none
  | (u, a) :: rest => if u = uid then some a else findUser uid rest

/-- In-place save of a user document (user.save). -/
def setUser (uid : Nat) (acc : Account) : List (Nat × Account) → List (Nat × Account)
  | [] => []
  | (u, a) :: rest =>
      if u = uid then (u, acc) :: rest else (u, a) :: setUser uid acc rest

/-- Errors thrown by updateWallet in walletService. -/
inductive WErr where
  | invalidAmount
  | userNotFound
  | notEligible
  | insufficientFunds
deriving DecidableEq

/-- Embedding of walletService.updateWallet. The amount argument is an
Option: none models a non-numeric value (isNaN), and the source rejects
amount 0 as well because !amount is true for 0. Positive amounts are
credits, negative amounts are debits. The validity check precedes the
user lookup, as in the source. -/
def updateWallet (userId : Nat) (amount : Option Int) (st : WalletSt) :
    Except WErr (WalletSt × Int) :=
  match amount with
  | none => .error .invalidAmount
  | some change =>
    if change = 0 then .error .invalidAmount
    else
      match findUser userId st.users with
      | none => .error .userNotFound
      | some user =>
        if user.role ≠ Role.user then .error .notEligible
        else
          let newBalance := user.walletBalance + change
          if newBalance < 0 then .error .insufficientFunds
          else
            .ok ({ users := setUser userId { user with walletBalance := newBalance } st.users,
                   txns := st.txns ++ [⟨userId, change.natAbs, decide (0 ≤ change), newBalance⟩] },
                 newBalance)

/-- Debit entry point of the spec: callers of updateWallet debit by
passing the negated amount (the purchase route passes -totalCost). -/
def walletDebit (userId : Nat) (amount : Int) (st : WalletSt) :
    Except WErr (WalletSt × Int) :=
  updateWallet userId (some (-amount)) st

/-- Opening balance of a freshly registered user account: the User
schema defaults walletBalance to the Decimal128 string 10000.00, here
in cents. No Transaction record is created for it. -/
def openingBalance : Int := 1000000

/-- Wallet state right after opening the given accounts: every account
has the schema-default balance and the ledger is empty. -/
def openWallet (uids : List Nat) : WalletSt :=
  { users := uids.map (fun u => (u, ⟨Role.user, openingBalance⟩)), txns := [] }

/-- One requested wallet operation (user id and raw amount). -/
structure WOp where
  userId : Nat
  amount : Option Int

/-- Run a sequence of wallet operations; a failed operation leaves the
state unchanged (the source aborts its transaction and the caller
continues). -/
def runOps (ops : List WOp) (st : WalletSt) : WalletSt :=
  match ops with
  | [] => st
  | op :: rest =>
      match updateWallet op.userId op.amount st with
      | .ok (st2, _) => runOps rest st2
      | .error _ => runOps rest st

/-- Sum of the signed ledger amounts recorded for one account. -/
def signedSumFor (uid : Nat) (txns : List Txn) : Int :=
  ((txns.filter (fun e => e.user == uid)).map signedAmount).sum

/-- One rank band of the winnerStructure. -/
structure WinnerRange where
  fromRank : Nat
  toRank : Nat
  prizeAmount : Int
deriving DecidableEq

/-- Stored lifecycle flags of the Lottery schema. -/
structure LotteryFlags where
  isUpcoming : Bool
  isActive : Bool
  isEnded : Bool
  resultAnnounced : Bool
deriving DecidableEq

/-- Lottery document fields used by the core operations. -/
structure Lottery where
  ticketPrice : Int
  maxTickets : Nat
  maxTicketsPerUser : Nat
  winnerStructure : List WinnerRange
  startDatetime : Int
  endDatetime : Int
  drawDatetime : Int
  ticketsSold : Nat
  flags : LotteryFlags
deriving DecidableEq

/-- Flags returned by utils/computeLotteryFlags. -/
structure CompFlags where
  isActive : Bool
  isEnded : Bool
  resultAnnounced : Bool
deriving DecidableEq

/-- Embedding of utils/computeLotteryFlags: hasStarted and hasEnded are
both forced by a sellout, isActive is literally hasStarted, and the
resultAnnounced output is keyed on the draw datetime only. -/
def computeLotteryFlags (l : Lottery) (now : Int) : CompFlags :=
  let ticketsSold := l.ticketsSold
  let hasStarted := decide (now ≥ l.startDatetime) || decide (ticketsSold ≥ l.maxTickets)
  let hasEnded := decide (now ≥ l.endDatetime) || decide (ticketsSold ≥ l.maxTickets)
  let resultReady := decide (now ≥ l.drawDatetime)
  { isActive := hasStarted, isEnded := hasEnded, resultAnnounced := resultReady }

/-- Derived phase of a lottery, following the currentStatus virtual of
the Lottery schema: an announced result shadows every other flag, an
ended lottery shadows an active one. The isUpcoming branch of the
virtual also tests startDatetime against the clock. -/
inductive Phase where
  | closed
  | ended
  | active
  | upcoming
  | draft
deriving DecidableEq

/-- Embedding of the currentStatus virtual of the Lottery schema. -/
def currentStatus (now : Int) (l : Lottery) : Phase :=
  if l.flags.resultAnnounced then .closed
  else if l.flags.isEnded then .ended
  else if l.flags.isActive then .active
  else if l.flags.isUpcoming || decide (l.startDatetime > now) then .upcoming
  else .draft

/-- TicketPurchase document (the TicketAllocation of the spec), with
ticket numbers by index. -/
structure Purchase where
  userId : Nat
  ticketNumbers : List Nat
  quantity : Nat
  perTicketPrice : Int
  totalPrice : Int
deriving DecidableEq

/-- One winner entry of a LotteryResult document (display-only fields
name, email and rankRange are omitted). -/
structure Winner where
  rank : Nat
  userId : Nat
  ticketNumber : Nat
  prizeAmount : Int
deriving DecidableEq

/-- LotteryResult document (the DrawResult of the spec). -/
structure LotResult where
  winners : List Winner
deriving DecidableEq

/-- Whole-system state for one lottery: the lottery document, its
TicketPurchase records, its LotteryResult records and the wallet
ledger. -/
structure SysSt where
  lottery : Lottery
  purchases : List Purchase
  results : List LotResult
  wallet : WalletSt
deriving DecidableEq

/-- Every sold ticket number of the lottery, across all purchase
records (flatMap over ticketNumbers in the route). -/
def soldTicketNumbers (ps : List Purchase) : List Nat :=
  ps.flatMap (fun p => p.ticketNumbers)

/-- Available ticket list: indices 1..maxTickets in ascending order,
minus the sold ones, as built by the purchase route. -/
def availableTickets (l : Lottery) (sold : List Nat) : List Nat :=
  ((List.range l.maxTickets).map (fun i => i + 1)).filter (fun n => !(sold.contains n))

/-- Errors of the purchase route, wallet errors propagated as thrown. -/
inductive PErr where
  | invalidQuantity
  | lotteryNotActive
  | perUserLimit
  | ticketUnavailable
  | quantityMismatch
  | notEnoughTickets
  | wallet (e : WErr)
deriving DecidableEq

/-- Ticket selection of the purchase route: explicit chosen tickets
must all be available (the lotteryPrefix startsWith test is subsumed by
membership in the available set under the index embedding) and their
count must equal the quantity; otherwise the first quantity available
tickets are taken in ascending order. -/
def selectTickets (avail chosen : List Nat) (quantity : Nat) : Except PErr (List Nat) :=
  if chosen ≠ [] then
    let invalid := chosen.filter (fun t => !(avail.contains t))
    if invalid ≠ [] then .error .ticketUnavailable
    else if chosen.length ≠ quantity then .error .quantityMismatch
    else .ok chosen
  else
    if avail.length < quantity then .error .notEnoughTickets
    else .ok (avail.take quantity)

/-- Upsert of the TicketPurchase record for the buyer: append to the
existing record if one exists, else create a new one. -/
def upsertPurchase (uid : Nat) (tickets : List Nat) (qty : Nat) (price cost : Int) :
    List Purchase → List Purchase
  | [] => [⟨uid, tickets, qty, price, cost⟩]
  | p :: rest =>
      if p.userId = uid then
        { p with ticketNumbers := p.ticketNumbers ++ tickets,
                 quantity := p.quantity + qty,
                 perTicketPrice := price,
                 totalPrice := p.totalPrice + cost } :: rest
      else p :: upsertPurchase uid tickets qty price cost rest

/-- Transactional body of POST /lottery/:id/purchase. Quantity is the
request quantity (the route rejects quantity ≤ 0 up front); the active
gate is the route test !flags.isActive || flags.isEnded on the computed
flags; the per-user cap compares existing plus requested quantity; the
debit is updateWallet with the negated total cost. -/
def purchaseTx (now : Int) (uid : Nat) (quantity : Nat) (chosenTickets : List Nat)
    (st : SysSt) : Except PErr (SysSt × List Nat) :=
  if quantity = 0 then .error .invalidQuantity
  else
    let l := st.lottery
    let flags := computeLotteryFlags l now
    if !flags.isActive || flags.isEnded then .error .lotteryNotActive
    else
      let sold := soldTicketNumbers st.purchases
      let avail := availableTickets l sold
      let existing := st.purchases.find? (fun p => p.userId == uid)
      let existingQty := (existing.map (fun p => p.quantity)).getD 0
      if existingQty + quantity > l.maxTicketsPerUser then .error .perUserLimit
      else
        match selectTickets avail chosenTickets quantity with
        | .error e => .error e
        | .ok ticketsToBuy =>
          let totalCost := l.ticketPrice * (quantity : Int)
          match updateWallet uid (some (-totalCost)) st.wallet with
          | .error e => .error (.wallet e)
          | .ok (wallet2, _) =>
            let purchases2 := upsertPurchase uid ticketsToBuy quantity l.ticketPrice totalCost st.purchases
            let lottery2 := { l with ticketsSold := l.ticketsSold + quantity }
            .ok ({ st with lottery := lottery2, purchases := purchases2, wallet := wallet2 },
                 ticketsToBuy)

/-- POST /lottery/:id/purchase with the surrounding transaction: on any
error the transaction is aborted, so the caller-visible state is the
pre-state. -/
def purchase (now : Int) (uid : Nat) (quantity : Nat) (chosenTickets : List Nat)
    (st : SysSt) : SysSt × Except PErr (List Nat) :=
  match purchaseTx now uid quantity chosenTickets st with
  | .ok (st2, tickets) => (st2, .ok tickets)
  | .error e => (st, .error e)

/-- Insertion of one element by the random comparator: each comparison
of the inconsistent comparator passed to Array.prototype.sort is a fair
coin, consumed from the stream; a true coin places the element before
the head. The runtime sorts short arrays by insertion sort, which this
models. -/
def insertC {α : Type} (x : α) : List α → List Bool → List α × List Bool
  | [], cs => ([x], cs)
  | y :: ys, [] => (x :: y :: ys, [])
  | y :: ys, c :: cs =>
      if c then (x :: y :: ys, cs)
      else
        let r := insertC x ys cs
        (y :: r.1, r.2)

/-- The comparator shuffle of the draw service, line
allTickets.sort of a random comparator: insertion sort whose
comparisons are the coin stream. -/
def sortC {α : Type} : List α → List Bool → List α × List Bool
  | [], cs => ([], cs)
  | x :: xs, cs =>
      let r := sortC xs cs
      insertC x r.1 r.2

/-- All coin streams of a given length, each equally likely. -/
def boolStreams : Nat → List (List Bool)
  | 0 => [[]]
  | n + 1 => (boolStreams n).flatMap (fun s => [true :: s, false :: s])

/-- Number of coin streams of length n under which the comparator
shuffle maps the input list to the target list; with all streams
equally likely this is 2^n times the probability of the target
permutation. -/
def shuffleCount (input : List Nat) (n : Nat) (target : List Nat) : Nat :=
  (boolStreams n).countP (fun cs => (sortC input cs).1 == target)

/-- All sold (ticketNumber, userId) pairs of the lottery, as collected
by the draw service from the purchase records. -/
def allTicketsOf (ps : List Purchase) : List (Nat × Nat) :=
  ps.flatMap (fun p => p.ticketNumbers.map (fun n => (n, p.userId)))

/-- Band size of one winnerStructure range: toRank - fromRank + 1
iterations of the inner loop, none when the range is inverted, matching
the loop guard on a negative JS value. -/
def groupSize (ws : WinnerRange) : Nat := ws.toRank + 1 - ws.fromRank

/-- Consecutive ranks assigned to the tickets of one band. -/
def assignRanks (tickets : List (Nat × Nat)) (startRank : Nat) (prize : Int) : List Winner :=
  match tickets with
  | [] => []
  | t :: rest => ⟨startRank, t.2, t.1, prize⟩ :: assignRanks rest (startRank + 1) prize

/-- Winner-picking loop of the draw service: walk the shuffled list
once, consuming a band of groupSize tickets per winnerStructure range
in declaration order, with a rank counter increasing across bands and
stopping when the list runs out. -/
def pickWinners (struct : List WinnerRange) (tickets : List (Nat × Nat)) (rank : Nat) :
    List Winner :=
  match struct with
  | [] => []
  | ws :: rest =>
      let taken := tickets.take (groupSize ws)
      assignRanks taken rank ws.prizeAmount ++
        pickWinners rest (tickets.drop (groupSize ws)) (rank + taken.length)

/-- Total number of winner slots configured by a winnerStructure. -/
def totalSlots (struct : List WinnerRange) : Nat :=
  (struct.map groupSize).sum

/-- Prize credits of the draw loop: one updateWallet credit per winner,
in winner order, the whole draw failing when any credit fails. -/
def creditWinners (winners : List Winner) (w : WalletSt) : Except WErr WalletSt :=
  match winners with
  | [] => .ok w
  | win :: rest =>
      match updateWallet win.userId (some win.prizeAmount) w with
      | .error e => .error e
      | .ok (w2, _) => creditWinners rest w2

/-- Errors thrown by drawLottery in the draw service. -/
inductive DErr where
  | alreadyAnnounced
  | drawTimeNotReached
  | notEnded
  | noTicketsSold
  | wallet (e : WErr)
deriving DecidableEq

/-- Transactional body of drawLotteryService.drawLottery: reject when
the result is already announced (also under force), enforce the draw
time and endedness unless forced, collect and shuffle the sold tickets,
pick and credit the winners, persist one LotteryResult and set the
resultAnnounced flag. The source interleaves each credit with the pick
of its winner; the picks do not read the wallet, so picking first and
crediting in the same order is the same function of the state. -/
def drawLotteryTx (now : Int) (force : Bool) (coins : List Bool) (st : SysSt) :
    Except DErr (SysSt × List Winner) :=
  let l := st.lottery
  if l.flags.resultAnnounced then .error .alreadyAnnounced
  else
    let endedByTime := decide (now ≥ l.endDatetime)
    let endedByTickets := l.flags.isEnded && decide (l.ticketsSold ≥ l.maxTickets)
    let reachedDrawTime := decide (now ≥ l.drawDatetime)
    if !force && !reachedDrawTime then .error .drawTimeNotReached
    else if !endedByTime && !endedByTickets && !force then .error .notEnded
    else
      let allTickets := allTicketsOf st.purchases
      if allTickets = [] then .error .noTicketsSold
      else
        let shuffled := (sortC allTickets coins).1
        let winners := pickWinners l.winnerStructure shuffled 1
        match creditWinners winners st.wallet with
        | .error e => .error (.wallet e)
        | .ok wallet2 =>
            .ok ({ st with
                     lottery := { l with flags.resultAnnounced := true },
                     results := st.results ++ [⟨winners⟩],
                     wallet := wallet2 },
                 winners)

/-- drawLottery with the surrounding transaction: on any error the
transaction is aborted and the caller-visible state is the pre-state. -/
def drawLottery (now : Int) (force : Bool) (coins : List Bool) (st : SysSt) :
    SysSt × Except DErr (List Winner) :=
  match drawLotteryTx now force coins st with
  | .ok (st2, winners) => (st2, .ok winners)
  | .error e => (st, .error e)

/-- Flag updates of one cron tick, steps 1 to 3 of the sweep: mark
upcoming, then active, then ended, sequentially against the same
document as the three updateMany calls run one after the other. -/
def sweepFlags (now : Int) (l : Lottery) : Lottery :=
  let l1 :=
    if !l.flags.isUpcoming && !l.flags.isActive && !l.flags.isEnded &&
        decide (l.startDatetime > now)
    then { l with flags.isUpcoming := true } else l
  let l2 :=
    if !l1.flags.isActive && !l1.flags.isEnded &&
        decide (l1.startDatetime ≤ now) && decide (l1.endDatetime > now)
    then { l1 with flags.isActive := true, flags.isUpcoming := false } else l1
  if !l2.flags.isEnded &&
      (decide (l2.endDatetime ≤ now) || decide (l2.ticketsSold ≥ l2.maxTickets))
  then { l2 with flags.isEnded := true, flags.isActive := false, flags.isUpcoming := false }
  else l2

/-- Step 4 of the cron tick: for a lottery that is ended, unannounced
and past its draw time, either mark it announced directly when no
ticket was sold, or run the draw (force false) and mark it announced;
a failed draw is caught and leaves the state unchanged. -/
def sweepDraw (now : Int) (coins : List Bool) (st : SysSt) : SysSt :=
  let l := st.lottery
  if !l.flags.resultAnnounced && l.flags.isEnded && decide (l.drawDatetime ≤ now) then
    if l.ticketsSold = 0 then
      { st with lottery := { l with flags.resultAnnounced := true } }
    else
      match drawLotteryTx now false coins st with
      | .ok (st2, _) =>
          { st2 with lottery := { st2.lottery with flags.resultAnnounced := true } }
      | .error _ => st
  else st

/-- One full cron tick for one lottery: the three flag updates followed
by the auto-draw step. -/
def sweep (now : Int) (coins : List Bool) (st : SysSt) : SysSt :=
  sweepDraw now coins { st with lottery := sweepFlags now st.lottery }

/-- Sum of all signed ledger amounts of a transaction list. -/
def ledgerTotal (txns : List Txn) : Int :=
  (txns.map signedAmount).sum

/-- Per-account ledger invariant: every account balance is non-negative
and equals the opening balance plus the signed sum of its ledger
entries. -/
def WalletInv (st : WalletSt) : Prop :=
  ∀ uid acc, findUser uid st.users = some acc →
    0 ≤ acc.walletBalance ∧ acc.walletBalance = openingBalance + signedSumFor uid st.txns

/-- Concrete active lottery with one funded buyer, used to evaluate the
operations at specific inputs. -/
def stActive : SysSt :=
  { lottery := { ticketPrice := 10, maxTickets := 10, maxTicketsPerUser := 5,
                 winnerStructure := [⟨1, 1, 100⟩, ⟨2, 3, 50⟩],
                 startDatetime := 0, endDatetime := 100, drawDatetime := 160,
                 ticketsSold := 0,
                 flags := ⟨false, true, false, false⟩ },
    purchases := [], results := [],
    wallet := { users := [(1, ⟨Role.user, 1000⟩)], txns := [] } }

/-- Concrete state exercising duplicate chosen tickets: two ticket
slots, a per-user cap of four, one funded buyer. -/
def stC3 : SysSt :=
  { lottery := { ticketPrice := 10, maxTickets := 2, maxTicketsPerUser := 4,
                 winnerStructure := [], startDatetime := 0, endDatetime := 100,
                 drawDatetime := 160, ticketsSold := 0,
                 flags := ⟨false, true, false, false⟩ },
    purchases := [], results := [],
    wallet := { users := [(1, ⟨Role.user, 1000⟩)], txns := [] } }

/-- Concrete active lottery whose buyer cannot afford one ticket. -/
def stPoor : SysSt :=
  { lottery := { ticketPrice := 10, maxTickets := 10, maxTicketsPerUser := 5,
                 winnerStructure := [], startDatetime := 0, endDatetime := 100,
                 drawDatetime := 160, ticketsSold := 0,
                 flags := ⟨false, true, false, false⟩ },
    purchases := [], results := [],
    wallet := { users := [(1, ⟨Role.user, 5⟩)], txns := [] } }

/-- Concrete lottery whose result is already announced, with one sold
ticket and an existing result record. -/
def stAnn : SysSt :=
  { lottery := { ticketPrice := 10, maxTickets := 10, maxTicketsPerUser := 5,
                 winnerStructure := [⟨1, 1, 100⟩],
                 startDatetime := 0, endDatetime := 100, drawDatetime := 160,
                 ticketsSold := 1,
                 flags := ⟨false, false, true, true⟩ },
    purchases := [⟨1, [4], 1, 10, 10⟩],
    results := [⟨[⟨1, 1, 4, 100⟩]⟩],
    wallet := { users := [(1, ⟨Role.user, 1000⟩)], txns := [] } }

/-- Concrete lottery past its end and draw times with zero tickets
sold and no announcement yet. -/
def stZero : SysSt :=
  { lottery := { ticketPrice := 10, maxTickets := 10, maxTicketsPerUser := 5,
                 winnerStructure := [⟨1, 1, 100⟩],
                 startDatetime := 0, endDatetime := 100, drawDatetime := 160,
                 ticketsSold := 0,
                 flags := ⟨false, true, false, false⟩ },
    purchases := [], results := [],
    wallet := { users := [(1, ⟨Role.user, 1000⟩)], txns := [] } }

/-! Helper lemmas about the wallet ledger. -/

theorem findUser_setUser_self (uid : Nat) (acc : Account) (us : List (Nat × Account)) :
    findUser uid (setUser uid acc us) = (findUser uid us).map (fun _ => acc) := by
  induction us with
  | nil => rfl
  | cons p rest ih =>
      obtain ⟨u, a⟩ := p
      by_cases h : u = uid <;> simp [setUser, findUser, h, ih]

theorem findUser_setUser_ne (v uid : Nat) (acc : Account) (us : List (Nat × Account))
    (h : v ≠ uid) : findUser v (setUser uid acc us) = findUser v us := by
  induction us with
  | nil => rfl
  | cons p rest ih =>
      obtain ⟨u, a⟩ := p
      by_cases hu : u = uid
      · have huv : ¬(uid = v) := fun hh => h hh.symm
        simp [setUser, findUser, hu, huv]
      · by_cases hv : u = v
        · rw [hv] at hu
          simp [setUser, findUser, hu, hv]
        · simp [setUser, findUser, hu, hv, ih]

theorem signedAmount_entry (uid : Nat) (c b : Int) :
    signedAmount ⟨uid, c.natAbs, decide (0 ≤ c), b⟩ = c := by
  by_cases h : 0 ≤ c
  · simp only [signedAmount, decide_eq_true (by exact h), if_true]
    omega
  · simp only [signedAmount, decide_eq_false h, Bool.false_eq_true, if_false]
    omega

theorem signedSumFor_append (uid : Nat) (txns : List Txn) (e : Txn) :
    signedSumFor uid (txns ++ [e]) =
      signedSumFor uid txns + (if e.user = uid then signedAmount e else 0) := by
  by_cases h : e.user = uid <;> simp [signedSumFor, List.filter_append, h]

theorem ledgerTotal_append (txns : List Txn) (e : Txn) :
    ledgerTotal (txns ++ [e]) = ledgerTotal txns + signedAmount e := by
  simp [ledgerTotal]

theorem updateWallet_ok (uid : Nat) (amt : Option Int) (st st2 : WalletSt) (b : Int)
    (h : updateWallet uid amt st = .ok (st2, b)) :
    ∃ c acc, amt = some c ∧ c ≠ 0 ∧ findUser uid st.users = some acc ∧
      acc.role = Role.user ∧ 0 ≤ acc.walletBalance + c ∧ b = acc.walletBalance + c ∧
      st2.users = setUser uid ⟨Role.user, b⟩ st.users ∧
      st2.txns = st.txns ++ [⟨uid, c.natAbs, decide (0 ≤ c), b⟩] := by
  match amt with
  | none => simp [updateWallet] at h
  | some c =>
      refine ⟨c, ?_⟩
      simp only [updateWallet] at h
      split at h
      · exact Except.noConfusion h
      · rename_i hc
        match hfind : findUser uid st.users with
        | none => rw [hfind] at h; exact Except.noConfusion h
        | some acc =>
            rw [hfind] at h
            refine ⟨acc, rfl, hc, rfl, ?_⟩
            split at h
            · exact Except.noConfusion h
            · rename_i user huser
              injection huser with huser
              subst huser
              split at h
              · exact Except.noConfusion h
              · rename_i hrole
                split at h
                · exact Except.noConfusion h
                · rename_i hnb
                  injection h with hpair
                  rw [Prod.mk.injEq] at hpair
                  obtain ⟨hst2, hb⟩ := hpair
                  have hrole2 : acc.role = Role.user := not_not.mp hrole
                  refine ⟨hrole2, by omega, hb.symm, ?_, ?_⟩
                  · rw [← hst2]
                    dsimp only
                    rw [hrole2, hb]
                  · rw [← hst2]
                    dsimp only
                    rw [hb]

theorem updateWallet_spec (uid : Nat) (c : Int) (st : WalletSt) (acc : Account)
    (hfind : findUser uid st.users = some acc) (hrole : acc.role = Role.user)
    (hc : c ≠ 0) :
    updateWallet uid (some c) st =
      if acc.walletBalance + c < 0 then .error .insufficientFunds
      else .ok (⟨setUser uid ⟨Role.user, acc.walletBalance + c⟩ st.users,
                 st.txns ++ [⟨uid, c.natAbs, decide (0 ≤ c), acc.walletBalance + c⟩]⟩,
                acc.walletBalance + c) := by
  obtain ⟨r, bal⟩ := acc
  have hr : r = Role.user := hrole
  subst hr
  simp only [updateWallet, if_neg hc, hfind]
  rw [if_neg (by simp)]

theorem walletInv_update (uid : Nat) (amt : Option Int) (st st2 : WalletSt) (b : Int)
    (hI : WalletInv st) (h : updateWallet uid amt st = .ok (st2, b)) : WalletInv st2 := by
  obtain ⟨c, acc, hamt, hc, hfind, hrole, hnn, hb, husers, htxns⟩ :=
    updateWallet_ok uid amt st st2 b h
  intro v a hv
  rw [husers] at hv
  by_cases hvu : v = uid
  · subst hvu
    rw [findUser_setUser_self, hfind] at hv
    simp only [Option.map_some'] at hv
    injection hv with hv
    obtain ⟨hpos, hbal⟩ := hI v acc hfind
    rw [← hv]
    have hsum : signedSumFor v st2.txns = signedSumFor v st.txns + c := by
      rw [htxns, signedSumFor_append]
      rw [if_pos rfl, signedAmount_entry]
    refine ⟨?_, ?_⟩
    · show (0 : Int) ≤ b
      omega
    · show b = openingBalance + signedSumFor v st2.txns
      rw [hsum]
      omega
  · rw [findUser_setUser_ne v uid _ _ hvu] at hv
    obtain ⟨hpos, hbal⟩ := hI v a hv
    refine ⟨hpos, ?_⟩
    rw [htxns, signedSumFor_append]
    have hne : ¬((⟨uid, c.natAbs, decide (0 ≤ c), b⟩ : Txn).user = v) := by
      simp only [Txn]
      exact fun hh => hvu hh.symm
    rw [if_neg hne]
    omega

theorem walletInv_runOps (ops : List WOp) (st : WalletSt) (hI : WalletInv st) :
    WalletInv (runOps ops st) := by
  induction ops generalizing st with
  | nil => exact hI
  | cons op rest ih =>
      simp only [runOps]
      match h : updateWallet op.userId op.amount st with
      | .ok (st2, b) => exact ih st2 (walletInv_update _ _ _ _ _ hI h)
      | .error e => exact ih st hI

theorem walletInv_open (uids : List Nat) : WalletInv (openWallet uids) := by
  intro uid acc h
  have hacc : acc = ⟨Role.user, openingBalance⟩ := by
    simp only [openWallet] at h
    induction uids with
    | nil => exact absurd h (by simp [findUser])
    | cons u rest ih =>
        simp only [List.map_cons, findUser] at h
        by_cases hu : u = uid
        · rw [if_pos hu] at h
          injection h with h
          exact h.symm
        · rw [if_neg hu] at h
          exact ih h
  subst hacc
  have hsum : signedSumFor uid (openWallet uids).txns = 0 := by
    simp [openWallet, signedSumFor]
  rw [hsum]
  exact ⟨by decide, by decide⟩

/-- C2 (amended): starting from account opening, after any sequence of
wallet operations every account balance is non-negative and equals the
opening balance (the schema default of 10000.00, not zero) plus the
signed sum of the amounts of all Transaction records of that account;
each successful operation appends exactly one record whose recorded
resulting balance equals the new balance. -/
theorem wallet_balance_ledger (uids : List Nat) (ops : List WOp) (uid : Nat) (acc : Account)
    (h : findUser uid (runOps ops (openWallet uids)).users = some acc) :
    (0 ≤ acc.walletBalance ∧
      acc.walletBalance = openingBalance + signedSumFor uid (runOps ops (openWallet uids)).txns) ∧
    (∀ v amt st st2 b2, updateWallet v amt st = .ok (st2, b2) →
      ∃ e, st2.txns = st.txns ++ [e] ∧ e.balanceAfter = b2 ∧
        findUser v st2.users = some ⟨Role.user, b2⟩) := by
  constructor
  · exact walletInv_runOps ops (openWallet uids) (walletInv_open uids) uid acc h
  · intro v amt st st2 b2 h2
    obtain ⟨c, acc2, hamt, hc, hfind, hrole, hnn, hb, husers, htxns⟩ :=
      updateWallet_ok v amt st st2 b2 h2
    refine ⟨⟨v, c.natAbs, decide (0 ≤ c), b2⟩, htxns, rfl, ?_⟩
    rw [husers, findUser_setUser_self, hfind]
    rfl

/-- C2 witness: opening account 1 and crediting 500 leaves balance
1000500, which the amended invariant relates to the ledger sum. -/
theorem wallet_balance_ledger_witness :
    0 ≤ (1000500 : Int) ∧
    (1000500 : Int) =
      openingBalance + signedSumFor 1 (runOps [⟨1, some 500⟩] (openWallet [1])).txns :=
  (wallet_balance_ledger [1] [⟨1, some 500⟩] 1 ⟨Role.user, 1000500⟩ (by decide)).1

/-- C2 counterexample: a freshly opened account (empty operation
sequence) has balance 10000.00 while the signed sum of its ledger
entries is 0, so the balance does not equal the signed sum of the
LedgerEntry amounts as claimed. -/
theorem wallet_balance_ledger_cex :
    findUser 1 (runOps [] (openWallet [1])).users = some ⟨Role.user, openingBalance⟩ ∧
    signedSumFor 1 (runOps [] (openWallet [1])).txns = 0 ∧
    (⟨Role.user, openingBalance⟩ : Account).walletBalance ≠ 0 := by
  decide

/-- C4: with an existing user-role account and a positive amount,
walletDebit fails with InsufficientFunds exactly when balance minus
amount is negative; on that failure the state is unchanged (the
surrounding transaction aborts), and on success the balance decreases
by the amount and exactly one debit ledger entry is appended recording
the new balance. -/
theorem walletDebit_insufficient (uid : Nat) (amount : Int) (st : WalletSt) (acc : Account)
    (hfind : findUser uid st.users = some acc) (hrole : acc.role = Role.user)
    (hpos : 0 < amount) :
    (walletDebit uid amount st = .error .insufficientFunds ↔ acc.walletBalance - amount < 0) ∧
    (walletDebit uid amount st = .error .insufficientFunds →
      runOps [⟨uid, some (-amount)⟩] st = st) ∧
    (∀ st2 b, walletDebit uid amount st = .ok (st2, b) →
      b = acc.walletBalance - amount ∧
      st2.txns = st.txns ++ [⟨uid, amount.natAbs, false, b⟩] ∧
      findUser uid st2.users = some ⟨Role.user, b⟩) := by
  have hc : (-amount) ≠ 0 := by omega
  have hspec := updateWallet_spec uid (-amount) st acc hfind hrole hc
  have hdec : decide (0 ≤ -amount) = false := by
    rw [decide_eq_false]
    omega
  have habs : (-amount).natAbs = amount.natAbs := Int.natAbs_neg amount
  rw [hdec, habs] at hspec
  unfold walletDebit
  refine ⟨?_, ?_, ?_⟩
  · rw [hspec]
    constructor
    · intro h
      by_contra hge
      rw [if_neg (by omega)] at h
      exact Except.noConfusion h
    · intro h
      rw [if_pos (by omega)]
  · intro h
    simp only [runOps]
    rw [show updateWallet uid (some (-amount)) st = Except.error WErr.insufficientFunds from h]
  · intro st2 b h
    rw [hspec] at h
    split at h
    · exact Except.noConfusion h
    · rename_i hge
      injection h with hpair
      rw [Prod.mk.injEq] at hpair
      obtain ⟨hst2, hb⟩ := hpair
      refine ⟨by omega, ?_, ?_⟩
      · rw [← hst2]
        dsimp only
        rw [hb]
      · rw [← hst2]
        dsimp only
        rw [findUser_setUser_self, hfind, hb]
        rfl

/-- C4 witness: an account with balance 50 debited by 100 fails with
InsufficientFunds and the wallet state is unchanged. -/
theorem walletDebit_insufficient_witness :
    walletDebit 7 100 ⟨[(7, ⟨Role.user, 50⟩)], []⟩ = .error .insufficientFunds ∧
    runOps [⟨7, some (-100)⟩] ⟨[(7, ⟨Role.user, 50⟩)], []⟩ =
      (⟨[(7, ⟨Role.user, 50⟩)], []⟩ : WalletSt) := by
  have h := walletDebit_insufficient 7 100 ⟨[(7, ⟨Role.user, 50⟩)], []⟩ ⟨Role.user, 50⟩
    (by decide) rfl (by decide)
  have he : walletDebit 7 100 ⟨[(7, ⟨Role.user, 50⟩)], []⟩ = .error .insufficientFunds :=
    h.1.mpr (by decide)
  exact ⟨he, h.2.1 he⟩

/-- C10: updateWallet is the single wallet operation, crediting for
positive and debiting for negative amounts; a zero or non-numeric
amount is rejected as an invalid amount before the account is read, so
it fails on every state (even one without the account), creates no
ledger entry and changes no balance. -/
theorem updateWallet_invalid_amount :
    (∀ uid amt st, amt = some 0 ∨ amt = none →
      updateWallet uid amt st = .error .invalidAmount ∧ runOps [⟨uid, amt⟩] st = st) ∧
    (∀ uid c st st2 b, updateWallet uid (some c) st = .ok (st2, b) →
      ∃ e, st2.txns = st.txns ++ [e] ∧ e.isCredit = decide (0 ≤ c)) := by
  constructor
  · rintro uid amt st (rfl | rfl) <;> simp [updateWallet, runOps]
  · intro uid c st st2 b h
    obtain ⟨c2, acc, hamt, hc, hfind, hrole, hnn, hb, husers, htxns⟩ :=
      updateWallet_ok uid (some c) st st2 b h
    injection hamt with hamt
    subst hamt
    exact ⟨⟨uid, c.natAbs, decide (0 ≤ c), b⟩, htxns, rfl⟩

/-- C10 witness: a zero amount on a state with no accounts at all fails
with the invalid-amount error and leaves the state unchanged. -/
theorem updateWallet_invalid_amount_witness :
    updateWallet 3 (some 0) ⟨[], []⟩ = .error .invalidAmount ∧
    runOps [⟨3, some 0⟩] ⟨[], []⟩ = (⟨[], []⟩ : WalletSt) :=
  updateWallet_invalid_amount.1 3 (some 0) ⟨[], []⟩ (Or.inl rfl)

/-- C1: the comparator shuffle of the draw service is biased. Under a
fair coin per comparator call, over the 8 equally likely length-3 coin
streams on a 3-ticket list, the identity order arises on 2 streams
while the transposed order 2,1,3 — also a permutation of the input —
arises on only 1, so not every permutation of the sold-ticket list is
equally likely and the sort-based shuffle is not a uniformly random
permutation. -/
theorem shuffle_not_uniform :
    shuffleCount [1, 2, 3] 3 [1, 2, 3] = 2 ∧
    shuffleCount [1, 2, 3] 3 [2, 1, 3] = 1 ∧
    List.Perm [2, 1, 3] [1, 2, 3] ∧ (2 : Nat) ≠ 1 := by
  decide

/-- C3: the purchase route accepts a request whose chosenTickets list
repeats an available ticket, because the availability filter checks
each entry independently and no duplicate check exists. Buying the two
available tickets twice each in one request of quantity 4 succeeds,
driving ticketsSold to 4 on a lottery with maxTickets 2 and recording
ticket number 1 twice in the allocations. -/
theorem purchase_duplicate_tickets :
    (purchase 50 1 4 [1, 1, 2, 2] stC3).2 = .ok [1, 1, 2, 2] ∧
    (purchase 50 1 4 [1, 1, 2, 2] stC3).1.lottery.ticketsSold = 4 ∧
    stC3.lottery.maxTickets = 2 ∧
    ¬((purchase 50 1 4 [1, 1, 2, 2] stC3).1.lottery.ticketsSold ≤
        (purchase 50 1 4 [1, 1, 2, 2] stC3).1.lottery.maxTickets) ∧
    (soldTicketNumbers (purchase 50 1 4 [1, 1, 2, 2] stC3).1.purchases).count 1 = 2 := by
  decide

theorem gate_iff (l : Lottery) (now : Int) :
    ((!(computeLotteryFlags l now).isActive || (computeLotteryFlags l now).isEnded) = false) ↔
      (l.startDatetime ≤ now ∧ now < l.endDatetime ∧ l.ticketsSold < l.maxTickets) := by
  simp only [computeLotteryFlags, Bool.or_eq_false_iff, Bool.not_eq_false', Bool.or_eq_true,
    decide_eq_true_eq, Bool.or_eq_false_iff, decide_eq_false_iff_not]
  constructor
  · rintro ⟨ha, he1, he2⟩
    rcases ha with ha | ha <;> omega
  · rintro ⟨h1, h2, h3⟩
    exact ⟨Or.inl (by omega), by omega, by omega⟩

theorem purchaseTx_ok (now : Int) (uid : Nat) (q : Nat) (ch : List Nat) (st st2 : SysSt)
    (tix : List Nat) (h : purchaseTx now uid q ch st = .ok (st2, tix)) :
    st2.lottery.flags = st.lottery.flags ∧
    st2.results = st.results ∧
    st2.lottery.ticketsSold = st.lottery.ticketsSold + q ∧
    q ≠ 0 ∧
    ((!(computeLotteryFlags st.lottery now).isActive ||
        (computeLotteryFlags st.lottery now).isEnded) = false) ∧
    (∃ b, updateWallet uid (some (-(st.lottery.ticketPrice * (q : Int)))) st.wallet =
        .ok (st2.wallet, b)) := by
  unfold purchaseTx at h
  split at h
  · exact Except.noConfusion h
  · rename_i hq
    dsimp only at h
    split at h
    · exact Except.noConfusion h
    · rename_i hgate
      split at h
      · exact Except.noConfusion h
      · rename_i hcap
        split at h
        · exact Except.noConfusion h
        · rename_i tickets hsel
          match hw : updateWallet uid (some (-(st.lottery.ticketPrice * (q : Int)))) st.wallet with
          | .error e =>
              rw [hw] at h
              exact Except.noConfusion h
          | .ok (wallet2, b) =>
              rw [hw] at h
              dsimp only at h
              injection h with hpair
              rw [Prod.mk.injEq] at hpair
              obtain ⟨hst2, htix⟩ := hpair
              rw [← hst2]
              refine ⟨rfl, rfl, rfl, hq, ?_, ⟨b, ?_⟩⟩
              · rw [Bool.not_eq_true] at hgate
                exact hgate
              · dsimp only

/-- C6: drawing a lottery whose result is already announced fails with
the already-announced error before any other step, for the sweep
(force false) and for the admin route (force true) alike, and the
returned state is exactly the pre-state: no ledger entry, no result
record, no flag change. -/
theorem draw_already_announced (now : Int) (force : Bool) (coins : List Bool) (st : SysSt)
    (h : st.lottery.flags.resultAnnounced = true) :
    drawLottery now force coins st = (st, .error .alreadyAnnounced) := by
  unfold drawLottery drawLotteryTx
  rw [if_pos h]

/-- C6 witness: a second draw on the announced lottery stAnn, forced by
an administrator, fails and changes nothing. -/
theorem draw_already_announced_witness :
    drawLottery 200 true [] stAnn = (stAnn, .error .alreadyAnnounced) :=
  draw_already_announced 200 true [] stAnn rfl

/-- C5: the purchase debits ticketPrice times quantity, any failing
step (the debit included) aborts the transaction leaving the state
untouched, and on success exactly one ledger entry for minus the total
cost is appended; in particular, with every precondition up to the
debit satisfied but the balance below the total cost, the purchase
fails with the insufficient-funds error and the state is returned
unchanged: no allocation, no ticketsSold change, no ledger entry. -/
theorem purchase_all_or_nothing (now : Int) (uid q : Nat) (ch : List Nat) (st : SysSt) :
    (∀ e, (purchase now uid q ch st).2 = .error e → (purchase now uid q ch st).1 = st) ∧
    (∀ st2 tix, purchase now uid q ch st = (st2, .ok tix) →
      ∃ e2, st2.wallet.txns = st.wallet.txns ++ [e2] ∧
        signedAmount e2 = -(st.lottery.ticketPrice * (q : Int))) ∧
    (∀ acc tix, q ≠ 0 →
      (st.lottery.startDatetime ≤ now ∧ now < st.lottery.endDatetime ∧
        st.lottery.ticketsSold < st.lottery.maxTickets) →
      ¬((Option.map (fun p => p.quantity)
            (st.purchases.find? (fun p => p.userId == uid))).getD 0 + q >
          st.lottery.maxTicketsPerUser) →
      selectTickets (availableTickets st.lottery (soldTicketNumbers st.purchases)) ch q =
        .ok tix →
      findUser uid st.wallet.users = some acc →
      acc.role = Role.user →
      0 < st.lottery.ticketPrice * (q : Int) →
      acc.walletBalance < st.lottery.ticketPrice * (q : Int) →
      purchase now uid q ch st = (st, .error (.wallet .insufficientFunds))) := by
  refine ⟨?_, ?_, ?_⟩
  · intro e he
    unfold purchase at he ⊢
    match hp : purchaseTx now uid q ch st with
    | .ok (st2, t) =>
        rw [hp] at he
        dsimp only at he
        exact Except.noConfusion he
    | .error e2 => rfl
  · intro st2 tix h
    unfold purchase at h
    match hp : purchaseTx now uid q ch st with
    | .error e2 =>
        rw [hp] at h
        rw [Prod.mk.injEq] at h
        exact Except.noConfusion h.2
    | .ok (st2b, t) =>
        rw [hp] at h
        rw [Prod.mk.injEq] at h
        obtain ⟨hst2, ht⟩ := h
        subst hst2
        obtain ⟨hflags, hres, hsold, hq, hgate, b, hw⟩ :=
          purchaseTx_ok now uid q ch st st2b t hp
        obtain ⟨c, acc, hamt, hc, hfind, hrole, hnn, hb, husers, htxns⟩ :=
          updateWallet_ok uid _ st.wallet st2b.wallet b hw
        injection hamt with hamt
        refine ⟨⟨uid, c.natAbs, decide (0 ≤ c), b⟩, htxns, ?_⟩
        rw [signedAmount_entry, ← hamt]
  · intro acc tix hq hact hcap hsel hfind hrole hcost hbal
    have hgateb : (!(computeLotteryFlags st.lottery now).isActive ||
        (computeLotteryFlags st.lottery now).isEnded) = false :=
      (gate_iff st.lottery now).mpr hact
    have hTx : purchaseTx now uid q ch st = .error (.wallet .insufficientFunds) := by
      unfold purchaseTx
      rw [if_neg hq]
      dsimp only
      rw [if_neg (by rw [hgateb]; exact Bool.false_ne_true)]
      rw [if_neg hcap, hsel]
      dsimp only
      rw [updateWallet_spec uid (-(st.lottery.ticketPrice * (q : Int))) st.wallet acc hfind hrole
        (by omega)]
      rw [if_pos (by omega)]
    unfold purchase
    rw [hTx]

/-- C5 witness: on stPoor (balance 5, ticket price 10) a one-ticket
purchase reaches the debit, fails with insufficient funds and leaves
the state unchanged. -/
theorem purchase_all_or_nothing_witness :
    purchase 50 1 1 [] stPoor = (stPoor, .error (.wallet .insufficientFunds)) :=
  (purchase_all_or_nothing 50 1 1 [] stPoor).2.2 ⟨Role.user, 5⟩ [1]
    (by decide) (by decide) (by decide) (by decide) (by decide) rfl (by decide) (by decide)

/-- C9: the purchase gate, requiring the computed isActive flag and the
negated computed isEnded flag, holds exactly when the start time has
been reached, the end time has not, and the lottery is not sold out;
every successful purchase happens under that condition, and a purchase
with a valid quantity outside it is rejected as not active with the
state unchanged. -/
theorem purchase_active_phase :
    (∀ l now, ((computeLotteryFlags l now).isActive = true ∧
        (computeLotteryFlags l now).isEnded = false) ↔
      (l.startDatetime ≤ now ∧ now < l.endDatetime ∧ l.ticketsSold < l.maxTickets)) ∧
    (∀ now uid q ch st st2 tix, purchase now uid q ch st = (st2, .ok tix) →
      st.lottery.startDatetime ≤ now ∧ now < st.lottery.endDatetime ∧
        st.lottery.ticketsSold < st.lottery.maxTickets) ∧
    (∀ now uid q ch st, q ≠ 0 →
      ¬(st.lottery.startDatetime ≤ now ∧ now < st.lottery.endDatetime ∧
          st.lottery.ticketsSold < st.lottery.maxTickets) →
      purchase now uid q ch st = (st, .error .lotteryNotActive)) := by
  refine ⟨?_, ?_, ?_⟩
  · intro l now
    rw [← gate_iff l now]
    constructor
    · rintro ⟨h1, h2⟩
      rw [h1, h2]
      rfl
    · intro h
      simp only [Bool.or_eq_false_iff, Bool.not_eq_false'] at h
      exact h
  · intro now uid q ch st st2 tix h
    unfold purchase at h
    match hp : purchaseTx now uid q ch st with
    | .error e2 =>
        rw [hp] at h
        rw [Prod.mk.injEq] at h
        exact Except.noConfusion h.2
    | .ok (st2b, t) =>
        obtain ⟨hflags, hres, hsold, hq, hgate, b, hw⟩ :=
          purchaseTx_ok now uid q ch st st2b t hp
        exact (gate_iff st.lottery now).mp hgate
  · intro now uid q ch st hq hcond
    have hgateb : (!(computeLotteryFlags st.lottery now).isActive ||
        (computeLotteryFlags st.lottery now).isEnded) = true := by
      rcases Bool.eq_false_or_eq_true
          (!(computeLotteryFlags st.lottery now).isActive ||
            (computeLotteryFlags st.lottery now).isEnded) with hb | hb
      · exact hb
      · exact absurd ((gate_iff st.lottery now).mp hb) hcond
    have hTx : purchaseTx now uid q ch st = .error .lotteryNotActive := by
      unfold purchaseTx
      rw [if_neg hq]
      dsimp only
      rw [if_pos hgateb]
    unfold purchase
    rw [hTx]

/-- C9 witness: on the active lottery stActive at time 50 a one-ticket
purchase succeeds, and the success implies the activity condition; at
time 150 (past the end time) the same purchase is rejected as not
active. -/
theorem purchase_active_phase_witness :
    (stActive.lottery.startDatetime ≤ 50 ∧ (50 : Int) < stActive.lottery.endDatetime ∧
      stActive.lottery.ticketsSold < stActive.lottery.maxTickets) ∧
    purchase 150 1 1 [] stActive = (stActive, .error .lotteryNotActive) := by
  constructor
  · exact purchase_active_phase.2.1 50 1 1 [] stActive
      (purchase 50 1 1 [] stActive).1 [1] (by decide)
  · exact purchase_active_phase.2.2 150 1 1 [] stActive (by decide) (by decide)

theorem range1_append (r n m : Nat) :
    List.range' r n ++ List.range' (r + n) m = List.range' r (n + m) := by
  have h := List.range'_append r n m 1
  rw [one_mul] at h
  rw [Nat.add_comm m n] at h
  exact h

theorem assignRanks_length (ts : List (Nat × Nat)) (r : Nat) (p : Int) :
    (assignRanks ts r p).length = ts.length := by
  induction ts generalizing r with
  | nil => rfl
  | cons t rest ih => simp [assignRanks, ih]

theorem assignRanks_map_rank (ts : List (Nat × Nat)) (r : Nat) (p : Int) :
    (assignRanks ts r p).map (fun w => w.rank) = List.range' r ts.length := by
  induction ts generalizing r with
  | nil => rfl
  | cons t rest ih => simp [assignRanks, List.range'_succ, ih]

theorem assignRanks_map_pair (ts : List (Nat × Nat)) (r : Nat) (p : Int) :
    (assignRanks ts r p).map (fun w => (w.ticketNumber, w.userId)) = ts := by
  induction ts generalizing r with
  | nil => rfl
  | cons t rest ih => simp [assignRanks, ih]

theorem pickWinners_length (struct : List WinnerRange) (tickets : List (Nat × Nat)) (r : Nat) :
    (pickWinners struct tickets r).length = min (totalSlots struct) tickets.length := by
  induction struct generalizing tickets r with
  | nil => simp [pickWinners, totalSlots]
  | cons ws rest ih =>
      simp only [pickWinners, List.length_append, assignRanks_length, List.length_take,
        ih, List.length_drop, totalSlots, List.map_cons, List.sum_cons]
      omega

theorem pickWinners_map_rank (struct : List WinnerRange) (tickets : List (Nat × Nat)) (r : Nat) :
    (pickWinners struct tickets r).map (fun w => w.rank) =
      List.range' r (pickWinners struct tickets r).length := by
  induction struct generalizing tickets r with
  | nil => rfl
  | cons ws rest ih =>
      simp only [pickWinners, List.map_append, assignRanks_map_rank, ih, List.length_append,
        assignRanks_length, List.length_take]
      rw [range1_append]

theorem pickWinners_map_pair (struct : List WinnerRange) (tickets : List (Nat × Nat)) (r : Nat) :
    (pickWinners struct tickets r).map (fun w => (w.ticketNumber, w.userId)) =
      tickets.take (totalSlots struct) := by
  induction struct generalizing tickets r with
  | nil => simp [pickWinners, totalSlots]
  | cons ws rest ih =>
      simp only [pickWinners, List.map_append, assignRanks_map_pair, ih, totalSlots,
        List.map_cons, List.sum_cons]
      rw [List.take_add]

theorem creditWinners_ok (winners : List Winner) (w w2 : WalletSt)
    (h : creditWinners winners w = .ok w2) :
    w2.txns.length = w.txns.length + winners.length ∧
    ledgerTotal w2.txns = ledgerTotal w.txns + (winners.map (fun x => x.prizeAmount)).sum := by
  induction winners generalizing w with
  | nil =>
      simp only [creditWinners] at h
      injection h with h
      subst h
      simp
  | cons win rest ih =>
      simp only [creditWinners] at h
      match hw : updateWallet win.userId (some win.prizeAmount) w with
      | .error e =>
          rw [hw] at h
          exact Except.noConfusion h
      | .ok (wi, b) =>
          rw [hw] at h
          dsimp only at h
          obtain ⟨hlen, htot⟩ := ih wi h
          obtain ⟨c, acc, hamt, hc, hfind, hrole, hnn, hb, husers, htxns⟩ :=
            updateWallet_ok win.userId _ w wi b hw
          injection hamt with hamt
          constructor
          · rw [hlen, htxns, List.length_append]
            simp only [List.length_cons, List.length_nil]
            omega
          · rw [htot, htxns, ledgerTotal_append, signedAmount_entry, ← hamt]
            simp only [List.map_cons, List.sum_cons]
            omega

/-- C7: the winner loop consumes the shuffled list in consecutive bands
of size toRank - fromRank + 1, in declaration order, stopping when the
list runs out: the number of winners is the minimum of the configured
slots and the tickets, ranks increase from the starting counter, the
winning tickets are an initial segment of the shuffled list, and the
credits applied by the loop are exactly one ledger entry per winner
summing to the winners' prize amounts; the 5-ticket scenario with
structure [(1,1,100),(2,3,50)] yields exactly ranks 1, 2, 3 with
prizes 100, 50, 50. -/
theorem draw_winner_bands :
    (∀ struct tickets r,
      (pickWinners struct tickets r).length = min (totalSlots struct) tickets.length) ∧
    (∀ struct tickets r,
      (pickWinners struct tickets r).map (fun w => w.rank) =
        List.range' r (pickWinners struct tickets r).length) ∧
    (∀ struct tickets r,
      (pickWinners struct tickets r).map (fun w => (w.ticketNumber, w.userId)) =
        tickets.take (totalSlots struct)) ∧
    (∀ winners w w2, creditWinners winners w = .ok w2 →
      w2.txns.length = w.txns.length + winners.length ∧
      ledgerTotal w2.txns = ledgerTotal w.txns + (winners.map (fun x => x.prizeAmount)).sum) ∧
    (pickWinners [⟨1, 1, 100⟩, ⟨2, 3, 50⟩] [(11, 1), (12, 2), (13, 3), (14, 4), (15, 5)] 1 =
      [⟨1, 1, 11, 100⟩, ⟨2, 2, 12, 50⟩, ⟨3, 3, 13, 50⟩]) :=
  ⟨pickWinners_length, pickWinners_map_rank, pickWinners_map_pair,
   creditWinners_ok, by decide⟩

/-- C7 witness: crediting the single winner of prize 100 appends one
ledger entry and raises the ledger total by exactly 100. -/
theorem draw_winner_bands_witness :
    ledgerTotal (⟨[(1, ⟨Role.user, 100⟩)], [⟨1, 100, true, 100⟩]⟩ : WalletSt).txns =
      ledgerTotal (⟨[(1, ⟨Role.user, 0⟩)], []⟩ : WalletSt).txns +
        ([(⟨1, 1, 11, 100⟩ : Winner)].map (fun x => x.prizeAmount)).sum :=
  (draw_winner_bands.2.2.2.1 [⟨1, 1, 11, 100⟩] ⟨[(1, ⟨Role.user, 0⟩)], []⟩
    ⟨[(1, ⟨Role.user, 100⟩)], [⟨1, 100, true, 100⟩]⟩ (by decide)).2

theorem sweepFlags_fields (now : Int) (l : Lottery) :
    (sweepFlags now l).ticketsSold = l.ticketsSold ∧
    (sweepFlags now l).endDatetime = l.endDatetime ∧
    (sweepFlags now l).drawDatetime = l.drawDatetime ∧
    (sweepFlags now l).flags.resultAnnounced = l.flags.resultAnnounced := by
  unfold sweepFlags
  dsimp only
  split <;> split <;> split <;> exact ⟨rfl, rfl, rfl, rfl⟩

theorem sweepFlags_ended (now : Int) (l : Lottery) (h : l.endDatetime ≤ now) :
    (sweepFlags now l).flags.isEnded = true := by
  have hfix : ∀ lx : Lottery, lx.endDatetime ≤ now →
      (if !lx.flags.isEnded &&
          (decide (lx.endDatetime ≤ now) || decide (lx.ticketsSold ≥ lx.maxTickets))
        then { lx with flags.isEnded := true, flags.isActive := false,
                       flags.isUpcoming := false }
        else lx).flags.isEnded = true := by
    intro lx hx
    split
    · rfl
    · rename_i hC
      simp only [Bool.and_eq_true, Bool.not_eq_true', Bool.or_eq_true, decide_eq_true_eq] at hC
      rcases Bool.eq_false_or_eq_true lx.flags.isEnded with hb | hb
      · exact hb
      · exact absurd ⟨hb, Or.inl hx⟩ hC
  unfold sweepFlags
  dsimp only
  apply hfix
  split <;> split <;> exact h

/-- C8: the announced flag is terminal. A sweep on an announced lottery
keeps it announced and its derived phase stays closed at every time; a
purchase never changes the lottery flags at all; a draw on an announced
lottery fails and returns the pre-state; and a sweep on an unannounced
lottery past its end and draw times with zero tickets sold marks it
announced directly while creating no result record and touching no
wallet state. -/
theorem result_announced_terminal :
    (∀ now coins st, st.lottery.flags.resultAnnounced = true →
      (sweep now coins st).lottery.flags.resultAnnounced = true ∧
      ∀ t, currentStatus t (sweep now coins st).lottery = Phase.closed) ∧
    (∀ now uid q ch st, (purchase now uid q ch st).1.lottery.flags = st.lottery.flags) ∧
    (∀ now force coins st, st.lottery.flags.resultAnnounced = true →
      drawLottery now force coins st = (st, .error .alreadyAnnounced)) ∧
    (∀ now coins st, st.lottery.flags.resultAnnounced = false →
      st.lottery.endDatetime ≤ now → st.lottery.drawDatetime ≤ now →
      st.lottery.ticketsSold = 0 →
      (sweep now coins st).lottery.flags.resultAnnounced = true ∧
      (sweep now coins st).results = st.results ∧
      (sweep now coins st).wallet = st.wallet) := by
  refine ⟨?_, ?_, ?_, ?_⟩
  · intro now coins st hA
    obtain ⟨hsold, hend, hdraw, hann⟩ := sweepFlags_fields now st.lottery
    have hub : (sweepFlags now st.lottery).flags.resultAnnounced = true := by
      rw [hann]
      exact hA
    have hres : (sweep now coins st).lottery.flags.resultAnnounced = true := by
      unfold sweep sweepDraw
      dsimp only
      rw [if_neg (by rw [hub]; simp)]
      exact hub
    refine ⟨hres, ?_⟩
    intro t
    unfold currentStatus
    rw [if_pos hres]
  · intro now uid q ch st
    unfold purchase
    match hp : purchaseTx now uid q ch st with
    | .error e2 => rfl
    | .ok (st2b, t) =>
        exact (purchaseTx_ok now uid q ch st st2b t hp).1
  · intro now force coins st h
    unfold drawLottery drawLotteryTx
    rw [if_pos h]
  · intro now coins st hA hE hD h0
    obtain ⟨hsold, hend, hdraw, hann⟩ := sweepFlags_fields now st.lottery
    have hub : (sweepFlags now st.lottery).flags.resultAnnounced = false := by
      rw [hann]
      exact hA
    have hEn : (sweepFlags now st.lottery).flags.isEnded = true :=
      sweepFlags_ended now st.lottery hE
    unfold sweep sweepDraw
    dsimp only
    rw [if_pos (by
      rw [hub, hEn, hdraw]
      simp only [Bool.not_false, Bool.true_and, Bool.and_true, decide_eq_true_eq]
      exact hD)]
    rw [if_pos (by rw [hsold]; exact h0)]
    exact ⟨rfl, rfl, rfl⟩

/-- C8 witness: the zero-ticket lottery stZero swept at time 200 (past
its end time 100 and draw time 160) is marked announced with its
results and wallet untouched. -/
theorem result_announced_terminal_witness :
    (sweep 200 [] stZero).lottery.flags.resultAnnounced = true ∧
    (sweep 200 [] stZero).results = stZero.results ∧
    (sweep 200 [] stZero).wallet = stZero.wallet :=
  result_announced_terminal.2.2.2 200 [] stZero rfl (by decide) (by decide) rfl

end Lottme
